import Mathlib

/-!
Verification of the `comparelist` web application (src/app.py).

The application keeps two SQLite relations, `items(id, name)` and
`comparisons(item1_id, item2_id, score)`, and derives a per-item rank by
scanning the comparison log.  We embed the data model and the four request
handlers (`index` GET/POST, `compare_items`, `record_comparison`) together
with the rank calculator `calculate_relative_rank` as pure Lean functions
over explicit state, and prove the spec's claims about them.

SQLite stores dynamically typed values; the columns here can hold either an
integer or a piece of text (the app inserts form strings into the id columns
and Python ints into the score column).  `DBValue` captures the two cases
that can actually occur in the two tables.
-/

namespace CompareList

/-- A dynamically typed SQLite column value: an integer or a text value. -/
inductive DBValue where
  | int (i : Int)
  | text (s : String)
  deriving DecidableEq

/-- One row of the `comparisons` relation. -/
structure CompRow where
  item1_id : DBValue
  item2_id : DBValue
  score : DBValue
  deriving DecidableEq

/-- One row of the `items` relation. -/
structure Item where
  id : Int
  name : String
  deriving DecidableEq

/-- Python's `str.strip()`: remove leading and trailing whitespace. -/
def pyStrip (s : String) : String :=
  ⟨((s.data.dropWhile Char.isWhitespace).reverse.dropWhile Char.isWhitespace).reverse⟩

/-- Value of a nonempty all-digit character list, `none` otherwise. -/
def decDigits? (cs : List Char) : Option Nat :=
  if cs ≠ [] ∧ cs.all Char.isDigit then
    some (cs.foldl (fun a c => a * 10 + (c.toNat - 48)) 0)
  else none

/-- Python's `int()` applied to a string: optional surrounding whitespace,
an optional sign, then decimal digits; anything else raises `ValueError`,
modelled as `none`. -/
def pyStrInt? (s : String) : Option Int :=
  match (pyStrip s).data with
  | [] => none
  | '-' :: rest => (decDigits? rest).map (fun n => -(n : Int))
  | '+' :: rest => (decDigits? rest).map (fun n => (n : Int))
  | cs => (decDigits? cs).map (fun n => (n : Int))

/-- Python's `int()` applied to a fetched column value: an integer is
returned unchanged, a text value is parsed as a decimal integer. -/
def pyIntVal? : DBValue → Option Int
  | .int i => some i
  | .text s => pyStrInt? s

/-- SQLite equality between a stored column value and an integer query
parameter.  The columns are declared with integer type, so integer-literal
text is already converted to an integer when stored; a value still stored
as text therefore compares unequal to any integer. -/
def dbEq : DBValue → Int → Bool
  | .int i, q => i = q
  | .text _, _ => false

/-- The query `SELECT ... FROM comparisons WHERE item1_id = ? OR
item2_id = ?`: every comparison row mentioning `iid` in either id column. -/
def comparisons_for (log : List CompRow) (iid : Int) : List CompRow :=
  log.filter (fun r => dbEq r.item1_id iid || dbEq r.item2_id iid)

/-- The accumulation loop of `calculate_relative_rank` (src/app.py lines
155-165).  Both id columns of each row are converted with `int()` before the
branch test; the score is converted only in the branch that is taken.  A
conversion failure raises `ValueError`, which aborts the whole loop
(modelled as `none`). -/
def rankLoop (iid : Int) : List CompRow → Int → Option Int
  | [], acc => some acc
  | r :: rs, acc =>
    match pyIntVal? r.item1_id, pyIntVal? r.item2_id with
    | some c1, some c2 =>
      if c1 = iid then
        match pyIntVal? r.score with
        | some s => rankLoop iid rs (acc + s)
        | none => none
      else if c2 = iid then
        match pyIntVal? r.score with
        | some s => rankLoop iid rs (acc - s)
        | none => none
      else rankLoop iid rs acc
    | _, _ => none

/-- A storage-layer failure raised by a query. -/
inductive DbError where
  | operational (msg : String)
  | unexpected (msg : String)
  deriving DecidableEq

/-- `calculate_relative_rank` with the storage layer made explicit: the
fetch of the comparison log either fails or yields the table.  `int(item_id)`
runs before the query; any exception on any path is caught and the function
returns the neutral rank 0 (src/app.py lines 144-177). -/
def calculate_relative_rank_db (fetch : Except DbError (List CompRow))
    (item_id : DBValue) : Int :=
  match pyIntVal? item_id with
  | none => 0
  | some iid =>
    match fetch with
    | .error _ => 0
    | .ok log => (rankLoop iid (comparisons_for log iid) 0).getD 0

/-- `calculate_relative_rank` on a healthy store holding `log`. -/
def calculate_relative_rank (log : List CompRow) (item_id : DBValue) : Int :=
  calculate_relative_rank_db (.ok log) item_id

/-- A fetched row processes without raising `ValueError` when queried for
`iid`: both id columns convert with `int()`, and when one of the two
branches would be taken the score converts as well. -/
def rowOk (iid : Int) (r : CompRow) : Bool :=
  match pyIntVal? r.item1_id, pyIntVal? r.item2_id with
  | some c1, some c2 =>
    if c1 = iid ∨ c2 = iid then (pyIntVal? r.score).isSome else true
  | _, _ => false

/-- The signed contribution of one processed row to the accumulator. -/
def contrib (iid : Int) (r : CompRow) : Int :=
  match pyIntVal? r.item1_id, pyIntVal? r.item2_id with
  | some c1, some c2 =>
    if c1 = iid then (pyIntVal? r.score).getD 0
    else if c2 = iid then -((pyIntVal? r.score).getD 0)
    else 0
  | _, _ => 0

/-- A comparison row all of whose columns hold integers, as produced from a
triple `(item1_id, item2_id, score)`. -/
def intRow : Int × Int × Int → CompRow
  | (a, b, s) => ⟨.int a, .int b, .int s⟩

/-- A comparison log of integer-valued rows. -/
def intLog (l : List (Int × Int × Int)) : List CompRow :=
  l.map intRow

/-- The spec's rank formula, written from its words: `sum(score where
item1_id == X) − sum(score where item2_id == X)` over all comparisons
mentioning item X.  Used only to compare against the code's
`calculate_relative_rank`. -/
def spec_rank (log : List CompRow) (iid : Int) : Int :=
  ((log.filter (fun r => r.item1_id = .int iid)).map
      (fun r => (pyIntVal? r.score).getD 0)).sum
  - ((log.filter (fun r => r.item2_id = .int iid)).map
      (fun r => (pyIntVal? r.score).getD 0)).sum

/-- One entry of the ranked listing built by the `index` GET handler. -/
structure RankedItem where
  id : Int
  name : String
  rank : Int
  deriving DecidableEq

/-- Insert into a rank-descending list, after every element of rank at
least as large: this is the insertion step of a stable descending sort,
matching Python's stable `list.sort(key=..., reverse=True)`. -/
def rankDescInsert (x : RankedItem) : List RankedItem → List RankedItem
  | [] => [x]
  | y :: ys => if y.rank ≤ x.rank then x :: y :: ys else y :: rankDescInsert x ys

/-- Stable sort by rank, descending. -/
def rankDescSort : List RankedItem → List RankedItem
  | [] => []
  | x :: xs => rankDescInsert x (rankDescSort xs)

/-- The ranked entry the `index` GET handler builds for one item row. -/
def rankedOf (log : List CompRow) (it : Item) : RankedItem :=
  ⟨it.id, it.name, calculate_relative_rank log (.int it.id)⟩

/-- The `index` GET handler (src/app.py lines 204-211): fetch all items in
store order, compute each item's rank, then sort by rank descending with
Python's stable sort. -/
def index_get (items : List Item) (log : List CompRow) : List RankedItem :=
  rankDescSort (items.map (rankedOf log))

/-- The `index` POST handler (src/app.py lines 184-201): read form field
`item_name` (absent modelled as `none`); if it is present, nonempty and not
all whitespace, insert its stripped value as a new item with the store's
fresh id `nextId`; otherwise do nothing.  Either way the handler redirects
to `/`. -/
def create_item (items : List Item) (nextId : Int) (item_name : Option String) :
    List Item :=
  match item_name with
  | none => items
  | some s =>
    if s ≠ "" ∧ pyStrip s ≠ "" then items ++ [⟨nextId, pyStrip s⟩]
    else items

/-- The form payload of a POST to `/record_comparison`; a missing field is
`none` (reading it raises `KeyError`). -/
structure CompForm where
  item1_id : Option String
  item2_id : Option String
  preference : Option String
  deriving DecidableEq

/-- The error class logged by `record_comparison` when a branch of its
`try` fails. -/
inductive RCError where
  | invalidInput
  deriving DecidableEq

/-- The HTTP response of `record_comparison`: the redirect to `/`, or one
of the two 500 responses of its `sqlite3.OperationalError` and generic
`Exception` branches. -/
inductive RCResponse where
  | redirectIndex
  | operational500 (msg : String)
  | unexpected500
  deriving DecidableEq

/-- Result of one `record_comparison` request: the response sent, the
comparison log afterwards, and the error class logged, if any. -/
structure RCResult where
  response : RCResponse
  log : List CompRow
  err : Option RCError
  deriving DecidableEq

/-- Storing a form string into an integer-typed SQLite column: an
integer-literal string is converted, anything else is kept as text. -/
def storeIntAffinity (s : String) : DBValue :=
  match pyStrInt? s with
  | some i => .int i
  | none => .text s

/-- The `record_comparison` handler (src/app.py lines 112-141) on a
constraint-free schema: read `item1_id` and `item2_id` (`KeyError` when
missing), convert `preference` with `int()` (`ValueError` when
unparseable), and insert the row; `ins` is the storage layer's outcome for
the INSERT.  `KeyError`/`ValueError` are caught: the handler logs the
invalid input, rolls back, and then falls through to the
`return redirect(url_for('index'))` after the `try` block, so both the
validation-failure path and the happy path answer with the redirect; only
the `sqlite3.OperationalError` and generic `Exception` branches answer
with a 500 instead. -/
def record_comparison (log : List CompRow) (form : CompForm)
    (ins : Except DbError Unit) : RCResult :=
  match form.item1_id with
  | none => ⟨.redirectIndex, log, some .invalidInput⟩
  | some i1 =>
    match form.item2_id with
    | none => ⟨.redirectIndex, log, some .invalidInput⟩
    | some i2 =>
      match form.preference with
      | none => ⟨.redirectIndex, log, some .invalidInput⟩
      | some p =>
        match pyStrInt? p with
        | none => ⟨.redirectIndex, log, some .invalidInput⟩
        | some pref =>
          match ins with
          | .error (.operational msg) => ⟨.operational500 msg, log, none⟩
          | .error (.unexpected _) => ⟨.unexpected500, log, none⟩
          | .ok _ =>
            ⟨.redirectIndex,
              log ++ [⟨storeIntAffinity i1, storeIntAffinity i2, .int pref⟩],
              none⟩

/-- A `/record_comparison` form the handler treats as invalid input:
a missing id field, a missing preference field, or a preference value that
`int()` cannot parse. -/
def InvalidCompForm (f : CompForm) : Prop :=
  f.item1_id = none ∨ f.item2_id = none ∨ f.preference = none ∨
    (∃ p, f.preference = some p ∧ pyStrInt? p = none)

/-- The HTTP response of the `compare_items` handler. -/
inductive CompareResponse where
  | comparePage (item1 item2 : Item)
  | notEnoughItems
  | couldNotFetch
  deriving DecidableEq

/-- The `compare_items` handler (src/app.py lines 94-105) on an initialized
store.  The query `SELECT id, name FROM items ORDER BY RANDOM() LIMIT 2`
returns the first two rows of `shuffled`, a random permutation of the item
store; with two rows it renders the comparison page, otherwise it counts
the items and answers with the plain-text "not enough items" message. -/
def compare_items (shuffled : List Item) : CompareResponse :=
  match shuffled.take 2 with
  | [a, b] => .comparePage a b
  | _ => if shuffled.length < 2 then .notEnoughItems else .couldNotFetch

/-! ## Characterization of the accumulation loop -/

theorem rankLoop_eq (iid : Int) (rows : List CompRow) (acc : Int) :
    rankLoop iid rows acc =
      if rows.all (rowOk iid) then some (acc + (rows.map (contrib iid)).sum)
      else none := by
  induction rows generalizing acc with
  | nil => simp [rankLoop]
  | cons r rs ih =>
    simp only [rankLoop, List.all_cons, List.map_cons, List.sum_cons]
    rcases h1 : pyIntVal? r.item1_id with _ | c1
    · simp [rowOk, h1]
    rcases h2 : pyIntVal? r.item2_id with _ | c2
    · simp [rowOk, h1, h2]
    by_cases hc1 : c1 = iid
    · rcases hs : pyIntVal? r.score with _ | s
      · simp [rowOk, contrib, h1, h2, hc1, hs]
      · simp [rowOk, contrib, h1, h2, hc1, hs, ih, add_assoc]
    by_cases hc2 : c2 = iid
    · rcases hs : pyIntVal? r.score with _ | s
      · simp [rowOk, contrib, h1, h2, hc1, hc2, hs]
      · simp only [rowOk, contrib, h1, h2, hc1, hc2, if_false, if_true,
          or_true, if_pos, hs, Option.isSome_some, Option.getD_some, ih,
          Bool.true_and, ite_false, ite_true]
        have : acc - s = acc + -s := by omega
        simp [hc1, this, add_assoc]
    · simp [rowOk, contrib, h1, h2, hc1, hc2, ih]

theorem calculate_relative_rank_eq (log : List CompRow) (iid : Int) :
    calculate_relative_rank log (.int iid) =
      if (comparisons_for log iid).all (rowOk iid)
      then ((comparisons_for log iid).map (contrib iid)).sum
      else 0 := by
  simp only [calculate_relative_rank, calculate_relative_rank_db, pyIntVal?]
  rw [rankLoop_eq]
  split <;> simp

theorem perm_all {α : Type} {l₁ l₂ : List α} (h : l₁.Perm l₂) (p : α → Bool) :
    l₁.all p = l₂.all p := by
  induction h with
  | nil => rfl
  | cons x _ ih => simp [List.all_cons, ih]
  | swap x y l => simp [List.all_cons, ← Bool.and_assoc, Bool.and_comm]
  | trans _ _ ih₁ ih₂ => rw [ih₁, ih₂]

theorem rowOk_intRow (iid : Int) (t : Int × Int × Int) :
    rowOk iid (intRow t) = true := by
  rcases t with ⟨a, b, s⟩
  simp only [rowOk, intRow, pyIntVal?]
  split <;> rfl

theorem intLog_all_rowOk (X : Int) (l : List (Int × Int × Int)) :
    (comparisons_for (intLog l) X).all (rowOk X) = true := by
  rw [List.all_eq_true]
  intro r hr
  have hr2 : r ∈ intLog l := List.mem_of_mem_filter hr
  rcases List.mem_map.mp hr2 with ⟨t, _, rfl⟩
  exact rowOk_intRow X t

theorem calc_rank_intLog (X : Int) (l : List (Int × Int × Int)) :
    calculate_relative_rank (intLog l) (.int X)
      = ((comparisons_for (intLog l) X).map (contrib X)).sum := by
  rw [calculate_relative_rank_eq, if_pos (intLog_all_rowOk X l)]

theorem comparisons_for_cons (r : CompRow) (rest : List CompRow) (X : Int) :
    comparisons_for (r :: rest) X =
      if (dbEq r.item1_id X || dbEq r.item2_id X) = true
      then r :: comparisons_for rest X
      else comparisons_for rest X := by
  rw [comparisons_for, List.filter_cons]
  rfl

theorem contrib_int (X a b s : Int) :
    contrib X ⟨.int a, .int b, .int s⟩
      = if a = X then s else if b = X then -s else 0 := by
  simp [contrib, pyIntVal?]

theorem spec_rank_cons (r : CompRow) (rest : List CompRow) (X : Int) :
    spec_rank (r :: rest) X =
      (if r.item1_id = .int X then (pyIntVal? r.score).getD 0 else 0)
      - (if r.item2_id = .int X then (pyIntVal? r.score).getD 0 else 0)
      + spec_rank rest X := by
  simp only [spec_rank, List.filter_cons]
  by_cases h1 : r.item1_id = DBValue.int X <;>
    by_cases h2 : r.item2_id = DBValue.int X <;>
      simp [h1, h2] <;> omega

theorem sum_contrib_eq_spec (X : Int) (l : List (Int × Int × Int))
    (h : ∀ t ∈ l, ¬(t.1 = X ∧ t.2.1 = X)) :
    ((comparisons_for (intLog l) X).map (contrib X)).sum
      = spec_rank (intLog l) X := by
  induction l with
  | nil => simp [comparisons_for, intLog, spec_rank]
  | cons t l ih =>
    rcases t with ⟨a, b, s⟩
    have hns : ¬(a = X ∧ b = X) := by simpa using h _ (List.mem_cons_self _ _)
    have ih2 := ih (fun u hu => h u (List.mem_cons_of_mem _ hu))
    have hcons : intLog ((a, b, s) :: l) = intRow (a, b, s) :: intLog l := rfl
    rw [hcons, comparisons_for_cons, spec_rank_cons]
    simp only [intRow, dbEq, pyIntVal?, Option.getD_some, DBValue.int.injEq,
      Bool.or_eq_true, decide_eq_true_eq]
    by_cases ha : a = X <;> by_cases hb : b = X
    · exact absurd ⟨ha, hb⟩ hns
    · rw [if_pos (Or.inl ha), if_pos ha, if_neg hb]
      simp only [List.map_cons, List.sum_cons, contrib_int, if_pos ha, ih2]
      omega
    · rw [if_pos (Or.inr hb), if_neg ha, if_pos hb]
      simp only [List.map_cons, List.sum_cons, contrib_int, if_neg ha,
        if_pos hb, ih2]
      omega
    · rw [if_neg (by tauto), if_neg ha, if_neg hb, ih2]
      omega

/-! ## Claims -/

/-- C1 (amended): for every item id X and every comparison log of
integer-valued rows that contains no self-comparison of X (no row with
item1_id = item2_id = X), `calculate_relative_rank` returns
sum(score where item1_id = X) − sum(score where item2_id = X) over all
comparisons mentioning X; and in Scenario A, after one comparison
(X, Y, score 5), rank(X) = 5 and rank(Y) = −5. -/
theorem c1_rank_formula :
    (∀ (l : List (Int × Int × Int)) (X : Int),
        (∀ t ∈ l, ¬(t.1 = X ∧ t.2.1 = X)) →
        calculate_relative_rank (intLog l) (.int X) = spec_rank (intLog l) X)
    ∧ calculate_relative_rank (intLog [(1, 2, 5)]) (.int 1) = 5
    ∧ calculate_relative_rank (intLog [(1, 2, 5)]) (.int 2) = -5 := by
  refine ⟨?_, by decide, by decide⟩
  intro l X h
  rw [calc_rank_intLog]
  exact sum_contrib_eq_spec X l h

/-- C1 counterexample: on the log holding the single self-comparison
(1, 1, 5), the code returns 5 (the `elif` adds the score once and never
subtracts it) while the claimed formula yields 5 − 5 = 0, so the claimed
equality fails on this state of the comparison log. -/
theorem c1_self_comparison_counterexample :
    calculate_relative_rank (intLog [(1, 1, 5)]) (.int 1) = 5
    ∧ spec_rank (intLog [(1, 1, 5)]) 1 = 0
    ∧ calculate_relative_rank (intLog [(1, 1, 5)]) (.int 1)
        ≠ spec_rank (intLog [(1, 1, 5)]) 1 := by
  decide

/-- Witness for C1: a concrete two-row log without self-comparisons on
which the amended formula evaluates as claimed. -/
theorem c1_rank_formula_witness :
    calculate_relative_rank (intLog [(1, 2, 5), (3, 1, 2)]) (.int 1)
      = spec_rank (intLog [(1, 2, 5), (3, 1, 2)]) 1 :=
  c1_rank_formula.1 [(1, 2, 5), (3, 1, 2)] 1 (by decide)

/-- C3: a self-comparison row (X, X, s) takes only the first branch of the
accumulation: inserted anywhere into the log, it adds its score s to
rank(X) exactly once and is never also subtracted. -/
theorem c3_self_comparison_first_branch (l₁ l₂ : List (Int × Int × Int))
    (X s : Int) :
    calculate_relative_rank (intLog (l₁ ++ (X, X, s) :: l₂)) (.int X)
      = calculate_relative_rank (intLog (l₁ ++ l₂)) (.int X) + s := by
  rw [calc_rank_intLog, calc_rank_intLog]
  have hsplit : intLog (l₁ ++ (X, X, s) :: l₂)
      = intLog l₁ ++ intRow (X, X, s) :: intLog l₂ := by
    simp [intLog]
  have hsplit2 : intLog (l₁ ++ l₂) = intLog l₁ ++ intLog l₂ := by
    simp [intLog]
  rw [hsplit, hsplit2, comparisons_for, comparisons_for, List.filter_append,
    List.filter_append, List.filter_cons]
  simp only [intRow, dbEq, decide_eq_true_eq]
  rw [if_pos (by simp)]
  simp only [List.map_append, List.sum_append, List.map_cons, List.sum_cons,
    contrib_int]
  simp
  omega

/-- C4: whenever the storage layer fails during rank computation,
`calculate_relative_rank` returns the neutral rank 0 instead of
propagating the error, for every item id. -/
theorem c4_storage_error_neutral_rank (e : DbError) (item_id : DBValue) :
    calculate_relative_rank_db (.error e) item_id = 0 := by
  unfold calculate_relative_rank_db
  rcases hp : pyIntVal? item_id with _ | iid <;> simp [hp]

/-- C6: the computed rank depends only on the multiset of recorded
comparisons, not on their insertion order: permuting the comparison log
leaves `calculate_relative_rank` unchanged for every queried item. -/
theorem c6_rank_permutation_invariant (l₁ l₂ : List CompRow)
    (h : l₁.Perm l₂) (item_id : DBValue) :
    calculate_relative_rank l₁ item_id = calculate_relative_rank l₂ item_id := by
  simp only [calculate_relative_rank, calculate_relative_rank_db]
  rcases hp : pyIntVal? item_id with _ | iid
  · rfl
  · have hperm : (comparisons_for l₁ iid).Perm (comparisons_for l₂ iid) :=
      h.filter _
    show (rankLoop iid (comparisons_for l₁ iid) 0).getD 0
      = (rankLoop iid (comparisons_for l₂ iid) 0).getD 0
    rw [rankLoop_eq, rankLoop_eq, perm_all hperm (rowOk iid),
      (hperm.map (contrib iid)).sum_eq]

/-- Witness for C6: swapping the two rows of a concrete log leaves the
computed rank of item 1 unchanged. -/
theorem c6_rank_permutation_invariant_witness :
    calculate_relative_rank [⟨.int 1, .int 2, .int 5⟩, ⟨.int 3, .int 1, .int 2⟩]
        (.int 1)
      = calculate_relative_rank
          [⟨.int 3, .int 1, .int 2⟩, ⟨.int 1, .int 2, .int 5⟩] (.int 1) :=
  c6_rank_permutation_invariant _ _
    (List.Perm.swap ⟨.int 3, .int 1, .int 2⟩ ⟨.int 1, .int 2, .int 5⟩ [])
    (.int 1)

/-- A stored value that equals an integer query parameter under SQLite
comparison is that integer. -/
theorem dbEq_true {v : DBValue} {iid : Int} (h : dbEq v iid = true) :
    v = .int iid := by
  cases v with
  | int i =>
    have : i = iid := by simpa [dbEq] using h
    rw [this]
  | text s => simp [dbEq] at h

/-- C10: if any single comparison row fetched for an item has an id or
score field that `int()` cannot parse, `calculate_relative_rank` returns 0
for that item, discarding the whole accumulation — it never returns a
partial sum. -/
theorem c10_bad_row_discards_all (log : List CompRow) (iid : Int) (r : CompRow)
    (hmem : r ∈ comparisons_for log iid)
    (hbad : pyIntVal? r.item1_id = none ∨ pyIntVal? r.item2_id = none ∨
      pyIntVal? r.score = none) :
    calculate_relative_rank log (.int iid) = 0 := by
  have hnotok : rowOk iid r = false := by
    rcases h1 : pyIntVal? r.item1_id with _ | c1
    · simp [rowOk, h1]
    rcases h2 : pyIntVal? r.item2_id with _ | c2
    · simp [rowOk, h1, h2]
    have hs : pyIntVal? r.score = none := by
      rcases hbad with h | h | h
      · exact absurd h (by simp [h1])
      · exact absurd h (by simp [h2])
      · exact h
    have hcond : c1 = iid ∨ c2 = iid := by
      have hq := (List.mem_filter.mp hmem).2
      rcases Bool.or_eq_true_iff.mp hq with hq1 | hq2
      · left
        have := dbEq_true hq1
        rw [this] at h1
        simpa [pyIntVal?] using h1.symm
      · right
        have := dbEq_true hq2
        rw [this] at h2
        simpa [pyIntVal?] using h2.symm
    simp [rowOk, h1, h2, hcond, hs]
  rw [calculate_relative_rank_eq]
  cases hall : (comparisons_for log iid).all (rowOk iid) with
  | false => rw [if_neg (by simp [hall])]
  | true =>
    have := List.all_eq_true.mp hall r hmem
    rw [hnotok] at this
    exact absurd this (by simp)

/-- Witness for C10: a fetched self-referencing row whose score column
holds unparseable text forces the rank of item 1 to 0. -/
theorem c10_bad_row_discards_all_witness :
    calculate_relative_rank
      [⟨.int 1, .int 2, .int 7⟩, ⟨.int 1, .int 1, .text "x"⟩] (.int 1) = 0 :=
  c10_bad_row_discards_all _ 1 ⟨.int 1, .int 1, .text "x"⟩ (by decide)
    (Or.inr (Or.inr (by decide)))

/-! ## The stable descending sort of the listing page -/

theorem rankDescInsert_perm (x : RankedItem) (l : List RankedItem) :
    (rankDescInsert x l).Perm (x :: l) := by
  induction l with
  | nil => exact List.Perm.refl _
  | cons y ys ih =>
    simp only [rankDescInsert]
    split
    · exact List.Perm.refl _
    · exact (ih.cons y).trans (List.Perm.swap x y ys)

theorem rankDescSort_perm (l : List RankedItem) : (rankDescSort l).Perm l := by
  induction l with
  | nil => exact List.Perm.refl _
  | cons x xs ih =>
    exact (rankDescInsert_perm x (rankDescSort xs)).trans (ih.cons x)

theorem rankDescInsert_head (x : RankedItem) (l : List RankedItem) :
    rankDescInsert x l = x :: l ∨
      ∃ y ys, l = y :: ys ∧ rankDescInsert x l = y :: rankDescInsert x ys ∧
        x.rank < y.rank := by
  cases l with
  | nil => left; rfl
  | cons y ys =>
    by_cases hle : y.rank ≤ x.rank
    · left; simp [rankDescInsert, hle]
    · right
      exact ⟨y, ys, rfl, by simp [rankDescInsert, hle], lt_of_not_le hle⟩

theorem rankDescInsert_chain (x : RankedItem) (l : List RankedItem)
    (h : List.Chain' (fun a b => b.rank ≤ a.rank) l) :
    List.Chain' (fun a b => b.rank ≤ a.rank) (rankDescInsert x l) := by
  induction l with
  | nil => simp [rankDescInsert]
  | cons y ys ih =>
    simp only [rankDescInsert]
    by_cases hle : y.rank ≤ x.rank
    · rw [if_pos hle]
      exact List.chain'_cons.mpr ⟨hle, h⟩
    · rw [if_neg hle]
      have hins := ih h.tail
      rcases rankDescInsert_head x ys with heq | ⟨z, zs, hys, heq, _⟩

      · rw [heq]
        exact List.chain'_cons.mpr ⟨le_of_lt (lt_of_not_le hle), heq ▸ hins⟩
      · rw [heq]
        have hyz : z.rank ≤ y.rank := by
          rw [hys] at h
          exact (List.chain'_cons.mp h).1
        exact List.chain'_cons.mpr ⟨hyz, heq ▸ hins⟩

theorem rankDescSort_chain (l : List RankedItem) :
    List.Chain' (fun a b => b.rank ≤ a.rank) (rankDescSort l) := by
  induction l with
  | nil => simp [rankDescSort]
  | cons x xs ih => exact rankDescInsert_chain x _ ih

theorem rankDescInsert_filter_ne (x : RankedItem) (l : List RankedItem)
    (r : Int) (hx : x.rank ≠ r) :
    (rankDescInsert x l).filter (fun e => e.rank = r)
      = l.filter (fun e => e.rank = r) := by
  induction l with
  | nil => simp [rankDescInsert, List.filter_cons, hx]
  | cons y ys ih =>
    simp only [rankDescInsert]
    split
    · simp [List.filter_cons, hx]
    · simp only [List.filter_cons, ih]

theorem rankDescInsert_filter_eq (x : RankedItem) (l : List RankedItem)
    (r : Int) (hx : x.rank = r) :
    (rankDescInsert x l).filter (fun e => e.rank = r)
      = x :: l.filter (fun e => e.rank = r) := by
  induction l with
  | nil => simp [rankDescInsert, List.filter_cons, hx]
  | cons y ys ih =>
    simp only [rankDescInsert]
    by_cases hle : y.rank ≤ x.rank
    · rw [if_pos hle]
      simp [List.filter_cons, hx]
    · rw [if_neg hle]
      have hyr : y.rank ≠ r := by
        rw [← hx]
        exact ne_of_gt (lt_of_not_le hle)
      simp [List.filter_cons, hyr, ih]

theorem rankDescSort_filter (l : List RankedItem) (r : Int) :
    (rankDescSort l).filter (fun e => e.rank = r)
      = l.filter (fun e => e.rank = r) := by
  induction l with
  | nil => rfl
  | cons x xs ih =>
    simp only [rankDescSort]
    by_cases hx : x.rank = r
    · rw [rankDescInsert_filter_eq x _ r hx, ih, List.filter_cons,
        if_pos (by simp [hx])]
    · rw [rankDescInsert_filter_ne x _ r hx, ih, List.filter_cons,
        if_neg (by simp [hx])]

/-- C7 (amended): the `index` listing is the per-item ranked sequence
sorted by rank descending with a stable sort — adjacent entries have
non-increasing rank, the output is a permutation of the store's ranked
entries, and entries of equal rank keep the store iteration order; in
Scenario B (items X, Y, Z with comparisons (X,Y,3), (Y,Z,2), (X,Z,−1)) the
ranks are X = 2, Y = −1, Z = −1 and the listing order is X, Y, Z, with Y
before Z only because ties keep store order. -/
theorem c7_rankings_sorted_stable :
    (∀ (items : List Item) (log : List CompRow),
        List.Chain' (fun a b => b.rank ≤ a.rank) (index_get items log))
    ∧ (∀ (items : List Item) (log : List CompRow),
        (index_get items log).Perm (items.map (rankedOf log)))
    ∧ (∀ (items : List Item) (log : List CompRow) (r : Int),
        (index_get items log).filter (fun e => e.rank = r)
          = (items.map (rankedOf log)).filter (fun e => e.rank = r))
    ∧ index_get [⟨1, "X"⟩, ⟨2, "Y"⟩, ⟨3, "Z"⟩]
        (intLog [(1, 2, 3), (2, 3, 2), (1, 3, -1)])
        = [⟨1, "X", 2⟩, ⟨2, "Y", -1⟩, ⟨3, "Z", -1⟩] := by
  exact ⟨fun items log => rankDescSort_chain _,
    fun items log => rankDescSort_perm _,
    fun items log r => rankDescSort_filter _ r,
    by decide⟩

/-- C7 counterexample: in Scenario B the code computes rank(Y) = −1, not
the claimed rank(Y) = 1 — Y loses 3 from (X,Y,3) and gains 2 from
(Y,Z,2). -/
theorem c7_scenarioB_counterexample :
    calculate_relative_rank (intLog [(1, 2, 3), (2, 3, 2), (1, 3, -1)])
        (.int 2) = -1
    ∧ calculate_relative_rank (intLog [(1, 2, 3), (2, 3, 2), (1, 3, -1)])
        (.int 2) ≠ 1 := by
  decide

/-- C2 (amended): on invalid form data (a missing id field, a missing
preference field, or an unparseable preference) the `record_comparison`
handler logs the invalid input and rolls back, but execution falls through
to the `return redirect(url_for('index'))` placed after the `try` block,
so it still answers with the redirect to `/`; the redirect is produced on
the validation-failure path as well as on the happy path. -/
theorem c2_redirect_even_on_invalid (log : List CompRow) (f : CompForm)
    (ins : Except DbError Unit) :
    (InvalidCompForm f →
      record_comparison log f ins = ⟨.redirectIndex, log, some .invalidInput⟩)
    ∧ (record_comparison log f (.ok ())).response = .redirectIndex
    ∧ (∀ a b q v, f = ⟨some a, some b, some q⟩ → pyStrInt? q = some v →
        record_comparison log f (.ok ())
          = ⟨.redirectIndex,
              log ++ [⟨storeIntAffinity a, storeIntAffinity b, .int v⟩],
              none⟩) := by
  refine ⟨?_, ?_, ?_⟩
  · rcases f with ⟨i1, i2, p⟩
    intro hinv
    rcases i1 with _ | s1
    · rfl
    rcases i2 with _ | s2
    · rfl
    rcases p with _ | sp
    · rfl
    rcases hp : pyStrInt? sp with _ | v
    · simp [record_comparison, hp]
    · rcases hinv with h | h | h | ⟨q, hq, hq2⟩ <;> simp_all
  · rcases f with ⟨i1, i2, p⟩
    rcases i1 with _ | s1
    · rfl
    rcases i2 with _ | s2
    · rfl
    rcases p with _ | sp
    · rfl
    rcases hp : pyStrInt? sp with _ | v <;> simp [record_comparison, hp]
  · intro a b q v hf hv
    subst hf
    simp [record_comparison, hv]

/-- C2 counterexample: a POST whose form is missing `item2_id` is handled
by the invalid-input branch and yet the response is the redirect to `/`,
refuting the claim that the handler falls through without redirecting on
validation failure. -/
theorem c2_counterexample :
    (record_comparison [] ⟨some "1", none, some "4"⟩ (.ok ())).err
        = some RCError.invalidInput
    ∧ (record_comparison [] ⟨some "1", none, some "4"⟩ (.ok ())).response
        = RCResponse.redirectIndex := by
  decide

/-- Witness for C2: a form missing `item1_id` is answered with the
redirect, an unchanged log, and the invalid-input classification. -/
theorem c2_redirect_even_on_invalid_witness :
    record_comparison [] ⟨none, some "2", some "1"⟩ (.ok ())
      = ⟨.redirectIndex, [], some .invalidInput⟩ :=
  (c2_redirect_even_on_invalid [] ⟨none, some "2", some "1"⟩ (.ok ())).1
    (Or.inl rfl)

/-- C5: when the preference value is not parseable as an integer, or
`item1_id`/`item2_id` is missing from the payload, `record_comparison`
classifies the request as invalid input and appends no row — the
comparison log is unchanged. -/
theorem c5_invalid_input_no_row (log : List CompRow) (f : CompForm)
    (ins : Except DbError Unit)
    (h : f.item1_id = none ∨ f.item2_id = none ∨
      ∃ p, f.preference = some p ∧ pyStrInt? p = none) :
    (record_comparison log f ins).err = some RCError.invalidInput
    ∧ (record_comparison log f ins).log = log := by
  rcases f with ⟨i1, i2, p⟩
  rcases i1 with _ | s1
  · exact ⟨rfl, rfl⟩
  rcases i2 with _ | s2
  · exact ⟨rfl, rfl⟩
  rcases p with _ | sp
  · exact ⟨rfl, rfl⟩
  rcases hp : pyStrInt? sp with _ | v
  · simp [record_comparison, hp]
  · rcases h with h | h | ⟨q, hq, hq2⟩ <;> simp_all

/-- Witness for C5: a non-integer preference value leaves a nonempty log
unchanged and is classified as invalid input. -/
theorem c5_invalid_input_no_row_witness :
    (record_comparison [⟨.int 1, .int 2, .int 3⟩]
        ⟨some "1", some "2", some "abc"⟩ (.ok ())).err
        = some RCError.invalidInput
    ∧ (record_comparison [⟨.int 1, .int 2, .int 3⟩]
        ⟨some "1", some "2", some "abc"⟩ (.ok ())).log
        = [⟨.int 1, .int 2, .int 3⟩] :=
  c5_invalid_input_no_row _ _ (.ok ()) (Or.inr (Or.inr ⟨"abc", rfl, by decide⟩))

/-- C8: on a store with fewer than 2 items `compare_items` answers with
the plain-text "not enough items" message; on a store with 2 or more items
it renders the comparison page with two items of the store, distinct
whenever the store's ids are distinct.  `shuffled` is the random order in
which `ORDER BY RANDOM()` returns the store's rows. -/
theorem c8_sample_two_random_items (store shuffled : List Item)
    (hperm : shuffled.Perm store) :
    (store.length < 2 → compare_items shuffled = .notEnoughItems)
    ∧ (2 ≤ store.length →
        ∃ a b, compare_items shuffled = .comparePage a b ∧ a ∈ store ∧
          b ∈ store ∧ ((store.map Item.id).Nodup → a.id ≠ b.id)) := by
  have hlen := hperm.length_eq
  constructor
  · intro hlt
    cases shuffled with
    | nil => rfl
    | cons a tl =>
      cases tl with
      | nil => rfl
      | cons b tl2 =>
        rw [← hlen] at hlt
        simp at hlt
        omega
  · intro hge
    cases shuffled with
    | nil =>
      rw [← hlen] at hge
      simp at hge
    | cons a tl =>
      cases tl with
      | nil =>
        rw [← hlen] at hge
        simp at hge
      | cons b tl2 =>
        refine ⟨a, b, rfl, ?_, ?_, ?_⟩
        · exact hperm.mem_iff.mp (List.mem_cons_self a _)
        · exact hperm.mem_iff.mp
            (List.mem_cons_of_mem _ (List.mem_cons_self b _))
        · intro hnd
          have hnd2 : ((a :: b :: tl2).map Item.id).Nodup :=
            ((hperm.map Item.id).nodup_iff).mpr hnd
          simp [List.nodup_cons] at hnd2
          exact hnd2.1.1

/-- Witness for C8: the empty store produces the "not enough items"
message, and a two-item store produces a comparison page with two items of
distinct ids. -/
theorem c8_sample_two_random_items_witness :
    compare_items [] = CompareResponse.notEnoughItems
    ∧ ∃ a b, compare_items [⟨1, "a"⟩, ⟨2, "b"⟩] = .comparePage a b ∧
        a ∈ [(⟨1, "a"⟩ : Item), ⟨2, "b"⟩] ∧ b ∈ [(⟨1, "a"⟩ : Item), ⟨2, "b"⟩] ∧
        (([(⟨1, "a"⟩ : Item), ⟨2, "b"⟩].map Item.id).Nodup → a.id ≠ b.id) :=
  ⟨(c8_sample_two_random_items [] [] (List.Perm.refl _)).1 (by decide),
    (c8_sample_two_random_items [⟨1, "a"⟩, ⟨2, "b"⟩] [⟨1, "a"⟩, ⟨2, "b"⟩]
      (List.Perm.refl _)).2 (by decide)⟩

/-- C9: submitting an empty or all-whitespace item name is a no-op — no
item is created; a name with visible content creates exactly one new item
whose stored name is the stripped input, and that item appears with that
name (and its computed rank) in a subsequent listing. -/
theorem c9_create_item :
    (∀ (items : List Item) (n : Int) (s : Option String),
        (s = none ∨ ∃ t, s = some t ∧ pyStrip t = "") →
        create_item items n s = items)
    ∧ (∀ (items : List Item) (n : Int) (t : String) (log : List CompRow),
        pyStrip t ≠ "" →
          create_item items n (some t) = items ++ [⟨n, pyStrip t⟩]
          ∧ (⟨n, pyStrip t, calculate_relative_rank log (.int n)⟩ : RankedItem)
              ∈ index_get (create_item items n (some t)) log) := by
  constructor
  · rintro items n s (rfl | ⟨t, rfl, ht⟩)
    · rfl
    · simp [create_item, ht]
  · intro items n t log ht
    have hc : create_item items n (some t) = items ++ [⟨n, pyStrip t⟩] := by
      have htne : t ≠ "" := by
        intro he
        rw [he] at ht
        exact ht rfl
      simp [create_item, htne, ht]
    refine ⟨hc, ?_⟩
    have hmem : (⟨n, pyStrip t, calculate_relative_rank log (.int n)⟩ : RankedItem)
        ∈ (create_item items n (some t)).map (rankedOf log) := by
      rw [hc, List.map_append]
      exact List.mem_append_right _ (by simp [rankedOf])
    exact ((rankDescSort_perm _).mem_iff).mpr hmem

/-- Witness for C9: an all-whitespace submission creates nothing, while
" hi " creates the item named "hi", which then shows up in the listing. -/
theorem c9_create_item_witness :
    create_item [] 1 (some "   ") = []
    ∧ create_item [⟨1, "A"⟩] 2 (some " hi ") = [⟨1, "A"⟩, ⟨2, "hi"⟩]
    ∧ (⟨2, "hi", 0⟩ : RankedItem)
        ∈ index_get (create_item [⟨1, "A"⟩] 2 (some " hi ")) [] :=
  ⟨c9_create_item.1 [] 1 (some "   ") (Or.inr ⟨"   ", rfl, by decide⟩),
    (c9_create_item.2 [⟨1, "A"⟩] 2 " hi " [] (by decide)).1,
    (c9_create_item.2 [⟨1, "A"⟩] 2 " hi " [] (by decide)).2⟩

end CompareList
